import Mathlib

/-!
Shallow embedding of `gogit.go` (package gogit): a small library that manages a
local clone of a remote git repository by shelling out to the `git` binary.
Effectful operations are modelled as pure functions over an explicit
environment `Env` that provides the oracles for the filesystem calls
(`os.Getwd`, `os.Chdir`, `os.MkdirAll`, `ioutil.WriteFile`) and a stubbed
subprocess runner (`exec.Cmd.CombinedOutput`).  Each operation returns a Go
error (`Option String`, `none` = nil), the ordered trace of side effects it
attempted, and the final process working directory.
-/

namespace Gogit

/-- ASCII whitespace, the fragment of `unicode.IsSpace` relevant here
(the strings in the claims are ASCII). -/
def isSpaceChar (c : Char) : Bool :=
  c == ' ' || c == '\t' || c == '\n' || c == '\x0b' || c == '\x0c' || c == '\r'

/-- Trim leading and trailing whitespace from a character list. -/
def trimChars (cs : List Char) : List Char :=
  ((cs.dropWhile isSpaceChar).reverse.dropWhile isSpaceChar).reverse

/-- `strings.TrimSpace`. -/
def trimSpace (s : String) : String :=
  String.mk (trimChars s.data)

/-- Does `needle` occur as a contiguous sublist of the second argument? -/
def hasSubList (needle : List Char) : List Char → Bool
  | [] => needle.isEmpty
  | c :: rest => needle.isPrefixOf (c :: rest) || hasSubList needle rest

/-- `bytes.Contains hay needle` / `strings.Contains`: needle occurs as a
contiguous substring of hay. -/
def containsSub (hay needle : String) : Bool :=
  hasSubList needle.data hay.data

/-- Fuel-driven worker for Go `strings.Split` with a non-empty separator:
scan left to right, cut at each occurrence of `sep`.  Each step consumes at
least one character, so fuel `s.length` always suffices; the fuel-0 fallback
is unreachable from `splitList`. -/
def splitFuel (sep : List Char) : Nat → List Char → List Char → List (List Char)
  | 0, s, acc => [acc.reverse ++ s]
  | _ + 1, [], acc => [acc.reverse]
  | fuel + 1, c :: rest, acc =>
      if sep.isPrefixOf (c :: rest) then
        acc.reverse :: splitFuel sep fuel (List.drop (sep.length - 1) rest) []
      else
        splitFuel sep fuel rest (c :: acc)

/-- Go `strings.Split s sep` (for non-empty `sep`), over character lists. -/
def splitList (sep : List Char) (s : List Char) : List (List Char) :=
  splitFuel sep s.length s []

/-- The prefix of `s` strictly before the first occurrence of `sep`
(all of `s` when `sep` does not occur): the spec's "split at the first
occurrence, keep the prefix". -/
def takeUntilSub (sep : List Char) : List Char → List Char
  | [] => []
  | c :: rest =>
      if sep.isPrefixOf (c :: rest) then [] else c :: takeUntilSub sep rest

/-- `ParseRepoFolder` (gogit.go:186-191): `strings.Split(repo, ".git")[0]`,
split that on `"/"`, take the last element, `strings.TrimSpace` it.
`splitList` never returns `[]`, so the `headD`/`getLastD` defaults are
unreachable (they stand for the Go index accesses `[0]` and `[len-1]`). -/
def ParseRepoFolder (repo : String) : String :=
  let firstPart := (splitList ".git".data repo.data).headD []
  let firstPartSplit := splitList ['/'] firstPart
  String.mk (trimChars (firstPartSplit.getLastD []))

/-- Modelled from the spec's words (§4.7), for comparison with
`ParseRepoFolder`: keep the prefix of `remoteURL` before the first
occurrence of `".git"`, take the last `/`-delimited segment of that prefix
(the characters after its last `/`), and trim surrounding whitespace. -/
def deriveRepoFolderSpec (remoteURL : String) : String :=
  let pre := takeUntilSub ".git".data remoteURL.data
  let seg := (pre.reverse.takeWhile (fun c => c ≠ '/')).reverse
  String.mk (trimChars seg)

/-- `filepath.Split fp` (slash separator): directory component up to and
including the final `/`, and the file name after it. -/
def filepathSplit (p : String) : String × String :=
  let rev := p.data.reverse
  let fileRev := rev.takeWhile (fun c => c ≠ '/')
  let dirRev := rev.dropWhile (fun c => c ≠ '/')
  (String.mk dirRev.reverse, String.mk fileRev.reverse)

/-- The two logrus levels the library uses (`WarnLevel` / `InfoLevel`). -/
inductive LogLevel where
  | warn
  | info
deriving DecidableEq, Repr

/-- The `GitRepo` handle (gogit.go:17-22).  `logger = none` models the nil
`*logrus.Logger` of a zero-valued handle; `some lvl` models an initialised
logger at level `lvl`.  (The derived `log` entry is nil exactly when the
logger is, so one field models both.) -/
structure GitRepo where
  repo : String
  folder : String
  logger : Option LogLevel
deriving DecidableEq, Repr

/-- Environment for `New` (gogit.go:28-53): `filepath.Abs`, the `exists`
check, and `os.MkdirAll`.  Oracles return `some msg` for a Go error. -/
structure NewEnv where
  absResult : String → Except String String
  dirExists : String → Bool
  mkdirAllErr : String → Option String

/-- The folder `New` uses (gogit.go:32-36): the explicit optional folder
when given, else the one derived from the repository URL. -/
def chooseFolder (repo : String) (optionalFolder : List String) : String :=
  match optionalFolder with
  | f :: _ => f
  | [] => ParseRepoFolder repo

/-- `New repo optionalFolder` (gogit.go:28-53).  Returns the (possibly
partially built) handle together with the Go error, exactly as the source
does: on `filepath.Abs` failure or `os.MkdirAll` failure the handle is
returned with its logger still nil; the logger is created only after
directory creation succeeds, at `WarnLevel`. -/
def New (repo : String) (optionalFolder : List String) (env : NewEnv) :
    GitRepo × Option String :=
  match env.absResult (chooseFolder repo optionalFolder) with
  | .error e => ({ repo := repo, folder := "", logger := none }, some e)
  | .ok absFolder =>
    if !env.dirExists absFolder then
      match env.mkdirAllErr absFolder with
      | some e => ({ repo := repo, folder := absFolder, logger := none }, some e)
      | none => ({ repo := repo, folder := absFolder, logger := some .warn }, none)
    else
      ({ repo := repo, folder := absFolder, logger := some .warn }, none)

/-- `GitRepo.Debug` (gogit.go:56-62): sets the logger level.  On a handle
whose logger is nil the call dereferences the nil pointer and panics,
modelled as `none`. -/
def Debug (gr : GitRepo) (enabled : Bool) : Option GitRepo :=
  match gr.logger with
  | none => none
  | some _ => some { gr with logger := some (if enabled then .info else .warn) }

/-- A subprocess command: executable name and argument list. -/
structure Cmd where
  name : String
  args : List String
deriving DecidableEq, Repr

/-- Result of `exec.Cmd.CombinedOutput`: the combined stdout+stderr text and
the invocation error (`some msg`, e.g. a non-zero exit status; `none` = nil). -/
structure RunResult where
  output : String
  err : Option String
deriving DecidableEq, Repr

/-- One side effect attempted by an operation, in order. -/
inductive Effect where
  | chdir (target : String)
  | mkdirAll (dir : String) (perm : Nat)
  | writeFile (path : String) (data : List Nat) (perm : Nat)
  | runCmd (c : Cmd)
deriving DecidableEq, Repr

/-- Environment for the operations: current working directory, oracles for
`os.Getwd` / `os.Chdir` / `os.MkdirAll` / `ioutil.WriteFile`, the stubbed
subprocess runner, and whether `<folder>/.git` exists. -/
structure Env where
  cwd : String
  getwdErr : Option String
  chdirErr : String → Option String
  mkdirAllErr : String → Option String
  writeFileErr : String → Option String
  run : Cmd → RunResult
  gitDirExists : Bool

/-- `os.Chdir target` from current directory `cur`: on success the working
directory becomes `target`, on failure it is unchanged. -/
def chdirStep (env : Env) (cur target : String) : String × Option String :=
  match env.chdirErr target with
  | some e => (cur, some e)
  | none => (target, none)

/-- The working directory after the deferred `os.Chdir(orig)` runs from
current directory `cur` (the `defer os.Chdir(cwd)` in every operation). -/
def restoreCwd (env : Env) (cur orig : String) : String :=
  (chdirStep env cur orig).1

/-- Outcome of an operation: the returned Go error, the ordered trace of
attempted side effects, and the final process working directory (after the
deferred `os.Chdir(cwd)`). -/
structure OpResult where
  err : Option String
  trace : List Effect
  finalCwd : String
deriving Repr

/-- `GitRepo.Update` (gogit.go:65-93).  Getwd; defer Chdir(cwd); Chdir to the
folder; clone if `<folder>/.git` is absent, else pull; `err` is the
invocation error from `CombinedOutput`, overwritten by
`"Could not <clone|pull> repo"` when the combined output contains `"fatal"`. -/
def Update (gr : GitRepo) (env : Env) : OpResult :=
  match env.getwdErr with
  | some e => { err := some e, trace := [], finalCwd := env.cwd }
  | none =>
    match env.chdirErr gr.folder with
    | some e =>
      { err := some e, trace := [.chdir gr.folder, .chdir env.cwd],
        finalCwd := restoreCwd env env.cwd env.cwd }
    | none =>
      let cmd := if !env.gitDirExists then
          Cmd.mk "git" ["clone", gr.repo, "."]
        else
          Cmd.mk "git" ["pull", "--rebase", "origin", "master"]
      let pullOrClone := if !env.gitDirExists then "clone" else "pull"
      let r := env.run cmd
      let err1 := if containsSub r.output "fatal" then
          some ("Could not " ++ pullOrClone ++ " repo")
        else r.err
      { err := err1, trace := [.chdir gr.folder, .runCmd cmd, .chdir env.cwd],
        finalCwd := restoreCwd env gr.folder env.cwd }

/-- `GitRepo.Push` (gogit.go:96-116).  Getwd; defer Chdir(cwd); Chdir to the
folder; run `git push origin master`; `err` is the invocation error,
overwritten by the full combined output when that output contains
`"error"`. -/
def Push (gr : GitRepo) (env : Env) : OpResult :=
  match env.getwdErr with
  | some e => { err := some e, trace := [], finalCwd := env.cwd }
  | none =>
    match env.chdirErr gr.folder with
    | some e =>
      { err := some e, trace := [.chdir gr.folder, .chdir env.cwd],
        finalCwd := restoreCwd env env.cwd env.cwd }
    | none =>
      let cmd := Cmd.mk "git" ["push", "origin", "master"]
      let r := env.run cmd
      let err1 := if containsSub r.output "error" then some r.output else r.err
      { err := err1, trace := [.chdir gr.folder, .runCmd cmd, .chdir env.cwd],
        finalCwd := restoreCwd env gr.folder env.cwd }

/-- `GitRepo.AddData` (gogit.go:122-166).  Getwd; defer Chdir(cwd); Chdir to
the folder; split `fp` into dir/file; `MkdirAll dir 0775` when the dir
component is non-empty; `WriteFile fp data 0755`; run `git add fp` (its
invocation error lands in the named return `err`); fail with the add output
when it contains `"error"`; otherwise run
`git commit -m ("Add " ++ fileName) fp` with its invocation error discarded
(`stdoutStderr, _ = cmd.CombinedOutput()`); fail with the commit output when
it contains `"error"`; otherwise return the add step's invocation error. -/
def AddData (gr : GitRepo) (data : List Nat) (fp : String) (env : Env) :
    OpResult :=
  match env.getwdErr with
  | some e => { err := some e, trace := [], finalCwd := env.cwd }
  | none =>
    match env.chdirErr gr.folder with
    | some e =>
      { err := some e, trace := [.chdir gr.folder, .chdir env.cwd],
        finalCwd := restoreCwd env env.cwd env.cwd }
    | none =>
      let dir := (filepathSplit fp).1
      let mkEffects : List Effect :=
        if dir.length > 0 then [.mkdirAll dir 0o775] else []
      let mkErr : Option String :=
        if dir.length > 0 then env.mkdirAllErr dir else none
      match mkErr with
      | some e =>
        { err := some e,
          trace := [.chdir gr.folder] ++ mkEffects ++ [.chdir env.cwd],
          finalCwd := restoreCwd env gr.folder env.cwd }
      | none =>
        match env.writeFileErr fp with
        | some e =>
          { err := some e,
            trace := [.chdir gr.folder] ++ mkEffects ++
              [.writeFile fp data 0o755, .chdir env.cwd],
            finalCwd := restoreCwd env gr.folder env.cwd }
        | none =>
          let addCmd := Cmd.mk "git" ["add", fp]
          let rAdd := env.run addCmd
          if containsSub rAdd.output "error" then
            { err := some rAdd.output,
              trace := [.chdir gr.folder] ++ mkEffects ++
                [.writeFile fp data 0o755, .runCmd addCmd, .chdir env.cwd],
              finalCwd := restoreCwd env gr.folder env.cwd }
          else
            let fileName := (filepathSplit fp).2
            let commitCmd := Cmd.mk "git" ["commit", "-m", "Add " ++ fileName, fp]
            let rCommit := env.run commitCmd
            let errFinal :=
              if containsSub rCommit.output "error" then some rCommit.output
              else rAdd.err
            { err := errFinal,
              trace := [.chdir gr.folder] ++ mkEffects ++
                [.writeFile fp data 0o755, .runCmd addCmd, .runCmd commitCmd,
                 .chdir env.cwd],
              finalCwd := restoreCwd env gr.folder env.cwd }

/-- Outcome of `GetRemoteOriginURL`: the returned string, the Go error, the
effect trace, and the final working directory. -/
structure UrlResult where
  repo : String
  err : Option String
  trace : List Effect
  finalCwd : String
deriving Repr

/-- `GetRemoteOriginURL` (gogit.go:168-184).  Getwd; defer Chdir(cwd); Chdir
to `repoFolder` (its failure is surfaced as-is, with the zero-valued `""` as
the string); run `git config --get remote.origin.url`; return the
`TrimSpace`d combined output together with the invocation error, as-is —
no text-based failure detection. -/
def GetRemoteOriginURL (repoFolder : String) (env : Env) : UrlResult :=
  match env.getwdErr with
  | some e => { repo := "", err := some e, trace := [], finalCwd := env.cwd }
  | none =>
    match env.chdirErr repoFolder with
    | some e =>
      { repo := "", err := some e,
        trace := [.chdir repoFolder, .chdir env.cwd],
        finalCwd := restoreCwd env env.cwd env.cwd }
    | none =>
      let cmd := Cmd.mk "git" ["config", "--get", "remote.origin.url"]
      let r := env.run cmd
      { repo := trimSpace r.output, err := r.err,
        trace := [.chdir repoFolder, .runCmd cmd, .chdir env.cwd],
        finalCwd := restoreCwd env repoFolder env.cwd }

/-! ### Lemmas about the split worker, towards claim C3 -/

theorem takeWhile_ne_append_left (c0 : Char) :
    ∀ (l l2 : List Char), c0 ∈ l →
      (l ++ l2).takeWhile (fun c => c ≠ c0) =
        l.takeWhile (fun c => c ≠ c0) := by
  intro l
  induction l with
  | nil => intro l2 h; cases h
  | cons a as ih =>
    intro l2 h
    by_cases ha : a = c0
    · subst ha
      simp [List.takeWhile_cons]
    · have hmem : c0 ∈ as := by
        rcases List.mem_cons.mp h with h1 | h1
        · exact absurd h1.symm ha
        · exact h1
      have step := ih l2 hmem
      simp only [ne_eq, decide_not] at step
      simp only [List.cons_append, List.takeWhile_cons]
      simp [ha, step]

theorem takeWhile_ne_append_all (c0 : Char) :
    ∀ (l l2 : List Char), c0 ∉ l →
      (l ++ l2).takeWhile (fun c => c ≠ c0) =
        l ++ l2.takeWhile (fun c => c ≠ c0) := by
  intro l
  induction l with
  | nil => intro l2 _; simp
  | cons a as ih =>
    intro l2 h
    have ha : a ≠ c0 := fun hac => h (hac ▸ List.mem_cons_self a as)
    have has : c0 ∉ as := fun hin => h (List.mem_cons_of_mem a hin)
    have step := ih l2 has
    simp only [ne_eq, decide_not] at step
    simp only [List.cons_append, List.takeWhile_cons]
    simp [ha, step]

theorem takeWhile_ne_of_not_mem (c0 : Char) (l : List Char) (h : c0 ∉ l) :
    l.takeWhile (fun c => c ≠ c0) = l := by
  have := takeWhile_ne_append_all c0 l [] h
  simpa using this

theorem splitFuel_headD (sep : List Char) :
    ∀ (fuel : Nat) (s acc : List Char), s.length ≤ fuel →
      (splitFuel sep fuel s acc).headD [] =
        acc.reverse ++ takeUntilSub sep s := by
  intro fuel
  induction fuel with
  | zero =>
    intro s acc h
    have hs : s = [] := List.eq_nil_of_length_eq_zero (Nat.le_zero.mp h)
    subst hs
    simp [splitFuel, takeUntilSub]
  | succ n ih =>
    intro s acc h
    cases s with
    | nil => simp [splitFuel, takeUntilSub]
    | cons c rest =>
      by_cases hp : sep.isPrefixOf (c :: rest) = true
      · simp [splitFuel, takeUntilSub, hp]
      · simp only [splitFuel, takeUntilSub, if_neg hp]
        rw [ih rest (c :: acc)
          (Nat.le_of_succ_le_succ (by simpa using h))]
        simp

theorem splitFuel_getLastD_single (c0 : Char) :
    ∀ (fuel : Nat) (s acc d : List Char), s.length ≤ fuel →
      (splitFuel [c0] fuel s acc).getLastD d =
        if c0 ∈ s then (s.reverse.takeWhile (fun c => c ≠ c0)).reverse
        else acc.reverse ++ s := by
  intro fuel
  induction fuel with
  | zero =>
    intro s acc d h
    have hs : s = [] := List.eq_nil_of_length_eq_zero (Nat.le_zero.mp h)
    subst hs
    simp [splitFuel]
  | succ n ih =>
    intro s acc d h
    cases s with
    | nil => simp [splitFuel]
    | cons c rest =>
      have hrest : rest.length ≤ n := Nat.le_of_succ_le_succ (by simpa using h)
      by_cases hc : c0 = c
      · subst hc
        have hp : List.isPrefixOf [c0] (c0 :: rest) = true := by
          simp [List.isPrefixOf]
        simp only [splitFuel, if_pos hp, List.length_singleton, Nat.sub_self,
          List.drop_zero, List.getLastD_cons]
        rw [ih rest [] acc.reverse hrest]
        by_cases hm : c0 ∈ rest
        · have hmr : c0 ∈ rest.reverse := List.mem_reverse.mpr hm
          simp only [if_pos hm, if_pos (List.mem_cons_self c0 rest),
            List.reverse_cons]
          rw [takeWhile_ne_append_left c0 rest.reverse [c0] hmr]
        · have hmr : c0 ∉ rest.reverse := fun hx => hm (List.mem_reverse.mp hx)
          simp only [if_neg hm, if_pos (List.mem_cons_self c0 rest),
            List.reverse_cons, List.reverse_nil, List.nil_append]
          rw [takeWhile_ne_append_all c0 rest.reverse [c0] hmr]
          simp [List.takeWhile_cons]
      · have hp : List.isPrefixOf [c0] (c :: rest) = false := by
          simp [List.isPrefixOf, hc]
        have hp' : ¬ (List.isPrefixOf [c0] (c :: rest) = true) := by
          simp [hp]
        simp only [splitFuel, if_neg hp']
        rw [ih rest (c :: acc) d hrest]
        have hmc : (c0 ∈ c :: rest) ↔ (c0 ∈ rest) := by
          constructor
          · intro hx
            rcases List.mem_cons.mp hx with h1 | h1
            · exact absurd h1 hc
            · exact h1
          · exact fun hx => List.mem_cons_of_mem c hx
        by_cases hm : c0 ∈ rest
        · have hmr : c0 ∈ rest.reverse := List.mem_reverse.mpr hm
          simp only [if_pos hm, if_pos (hmc.mpr hm), List.reverse_cons]
          rw [takeWhile_ne_append_left c0 rest.reverse [c] hmr]
        · simp only [if_neg hm, if_neg (fun hx => hm (hmc.mp hx)),
            List.reverse_cons]
          simp

/-- `ParseRepoFolder` agrees everywhere with the function written from the
spec's words. -/
theorem parseRepoFolder_eq_spec (s : String) :
    ParseRepoFolder s = deriveRepoFolderSpec s := by
  unfold ParseRepoFolder deriveRepoFolderSpec splitList
  rw [splitFuel_headD ".git".data s.data.length s.data [] (Nat.le_refl _)]
  simp only [List.reverse_nil, List.nil_append]
  rw [splitFuel_getLastD_single '/'
    (takeUntilSub ".git".data s.data).length
    (takeUntilSub ".git".data s.data) [] [] (Nat.le_refl _)]
  by_cases hm : '/' ∈ takeUntilSub ".git".data s.data
  · simp [hm]
  · have hmr : '/' ∉ (takeUntilSub ".git".data s.data).reverse :=
      fun hx => hm (List.mem_reverse.mp hx)
    simp only [if_neg hm, List.reverse_nil, List.nil_append]
    rw [takeWhile_ne_of_not_mem '/' _ hmr]
    simp

/-! ### Concrete fixtures for counterexamples and witnesses -/

/-- A concrete handle as produced by a successful `New`. -/
def demoRepo : GitRepo :=
  { repo := "https://host/group/project.git", folder := "/work/project",
    logger := some .warn }

/-- Environment where every filesystem call succeeds and the stubbed
subprocess exits non-zero (`some "exit status 1"`) with empty combined
output — no `"fatal"` or `"error"` text anywhere. -/
def envExitNoFatal : Env :=
  { cwd := "/work", getwdErr := none, chdirErr := fun _ => none,
    mkdirAllErr := fun _ => none, writeFileErr := fun _ => none,
    run := fun _ => { output := "", err := some "exit status 1" },
    gitDirExists := false }

/-- Environment whose stubbed subprocess prints a `fatal` message. -/
def envFatal : Env :=
  { cwd := "/work", getwdErr := none, chdirErr := fun _ => none,
    mkdirAllErr := fun _ => none, writeFileErr := fun _ => none,
    run := fun _ => { output := "fatal: repository not found",
                      err := some "exit status 128" },
    gitDirExists := false }

/-- Environment whose stubbed subprocess prints an `error` message. -/
def envErrorOut : Env :=
  { cwd := "/work", getwdErr := none, chdirErr := fun _ => none,
    mkdirAllErr := fun _ => none, writeFileErr := fun _ => none,
    run := fun _ => { output := "error: failed to push some refs",
                      err := some "exit status 1" },
    gitDirExists := true }

/-- Environment where everything succeeds and the subprocess is silent. -/
def envQuiet : Env :=
  { cwd := "/work", getwdErr := none, chdirErr := fun _ => none,
    mkdirAllErr := fun _ => none, writeFileErr := fun _ => none,
    run := fun _ => { output := "", err := none },
    gitDirExists := false }

/-- Like `envQuiet` but with `<folder>/.git` present (pull mode). -/
def envQuietPull : Env :=
  { cwd := "/work", getwdErr := none, chdirErr := fun _ => none,
    mkdirAllErr := fun _ => none, writeFileErr := fun _ => none,
    run := fun _ => { output := "", err := none },
    gitDirExists := true }

/-! ### Claim theorems -/

/-- Claim C3: `ParseRepoFolder` is a pure total function agreeing everywhere
with the rule "prefix before the first `\".git\"`, last `/`-segment of it,
whitespace-trimmed"; on `"https://host/group/project.git"` and
`"https://host/group/project"` it yields `"project"`, it trims surrounding
whitespace, and it returns the empty string on degenerate input such as
`".git"`. -/
theorem c3_theorem :
    (∀ s : String, ParseRepoFolder s = deriveRepoFolderSpec s) ∧
    ParseRepoFolder "https://host/group/project.git" = "project" ∧
    ParseRepoFolder "https://host/group/project" = "project" ∧
    ParseRepoFolder "https://host/group/ project .git" = "project" ∧
    ParseRepoFolder ".git" = "" := by
  refine ⟨parseRepoFolder_eq_spec, ?_, ?_, ?_, ?_⟩ <;> rfl

/-- Claim C4: with working-directory resolution and change succeeding,
`Update` runs `git clone <remoteURL> .` when `<folder>/.git` is absent and
`git pull --rebase origin master` (hardcoded branch `master`) when it is
present. -/
theorem c4_theorem (gr : GitRepo) (env : Env)
    (h1 : env.getwdErr = none) (h2 : env.chdirErr gr.folder = none) :
    (env.gitDirExists = false →
      (Update gr env).trace =
        [Effect.chdir gr.folder,
         Effect.runCmd (Cmd.mk "git" ["clone", gr.repo, "."]),
         Effect.chdir env.cwd]) ∧
    (env.gitDirExists = true →
      (Update gr env).trace =
        [Effect.chdir gr.folder,
         Effect.runCmd (Cmd.mk "git" ["pull", "--rebase", "origin", "master"]),
         Effect.chdir env.cwd]) := by
  constructor <;> intro hg <;> simp [Update, h1, h2, hg]

/-- Witness for C4 at concrete inputs: clone mode on a fresh directory,
pull mode when the metadata directory exists. -/
theorem c4_witness :
    (Update demoRepo envQuiet).trace =
      [Effect.chdir "/work/project",
       Effect.runCmd (Cmd.mk "git" ["clone", "https://host/group/project.git", "."]),
       Effect.chdir "/work"] ∧
    (Update demoRepo envQuietPull).trace =
      [Effect.chdir "/work/project",
       Effect.runCmd (Cmd.mk "git" ["pull", "--rebase", "origin", "master"]),
       Effect.chdir "/work"] := by
  constructor
  · exact (c4_theorem demoRepo envQuiet rfl rfl).1 rfl
  · exact (c4_theorem demoRepo envQuietPull rfl rfl).2 rfl

/-- Counterexample to claim C1 as stated: the subprocess exits non-zero with
combined output that does not contain `"fatal"`, yet `Update` fails — the
invocation error is returned, not ignored. -/
theorem c1_counterexample :
    containsSub
      (envExitNoFatal.run (Cmd.mk "git" ["clone", demoRepo.repo, "."])).output
      "fatal" = false ∧
    (Update demoRepo envExitNoFatal).err = some "exit status 1" := by
  exact ⟨rfl, rfl⟩

/-- Claim C1 (amended): with Getwd and Chdir succeeding, `Update` fails with
the mode-identifying error `"Could not <clone|pull> repo"` exactly when the
combined output contains `"fatal"`; when it does not, `Update` returns the
subprocess invocation error unchanged (so a non-zero exit fails `Update`
even without `"fatal"` in the output). -/
theorem c1_theorem (gr : GitRepo) (env : Env)
    (h1 : env.getwdErr = none) (h2 : env.chdirErr gr.folder = none) :
    (Update gr env).err =
      (if containsSub
          (env.run (if !env.gitDirExists then
              Cmd.mk "git" ["clone", gr.repo, "."]
            else
              Cmd.mk "git" ["pull", "--rebase", "origin", "master"])).output
          "fatal" then
        some ("Could not " ++ (if !env.gitDirExists then "clone" else "pull")
          ++ " repo")
      else
        (env.run (if !env.gitDirExists then
            Cmd.mk "git" ["clone", gr.repo, "."]
          else
            Cmd.mk "git" ["pull", "--rebase", "origin", "master"])).err) := by
  simp only [Update, h1, h2]

/-- Witness for the amended C1: a `fatal` output yields the clone-tagged
error; a silent non-zero exit yields that exit error. -/
theorem c1_witness :
    (Update demoRepo envFatal).err = some "Could not clone repo" ∧
    (Update demoRepo envExitNoFatal).err = some "exit status 1" := by
  constructor
  · rw [c1_theorem demoRepo envFatal rfl rfl]; rfl
  · rw [c1_theorem demoRepo envExitNoFatal rfl rfl]; rfl

/-- Counterexample to claim C2 as stated: the push subprocess exits non-zero
with combined output containing no `"error"` substring, yet `Push` fails —
the invocation error is returned, not superseded. -/
theorem c2_counterexample :
    containsSub
      (envExitNoFatal.run (Cmd.mk "git" ["push", "origin", "master"])).output
      "error" = false ∧
    (Push demoRepo envExitNoFatal).err = some "exit status 1" := by
  exact ⟨rfl, rfl⟩

/-- Claim C2 (amended): only the commit step discards its subprocess
invocation error.  For push, when the combined output lacks `"error"` the
invocation error is returned (so a non-zero exit fails the operation); for
the add step likewise (its invocation error survives as the result of a
clean run, see the else-branch below), and after a clean add output the
final error of `AddData` is the commit output when that contains `"error"`,
else the add step's invocation error — the commit invocation error never
appears. -/
theorem c2_theorem (gr : GitRepo) (data : List Nat) (fp : String) (env : Env)
    (h1 : env.getwdErr = none) (h2 : env.chdirErr gr.folder = none)
    (h3 : env.mkdirAllErr (filepathSplit fp).1 = none)
    (h4 : env.writeFileErr fp = none)
    (h5 : containsSub (env.run (Cmd.mk "git" ["add", fp])).output "error"
      = false) :
    (Push gr env).err =
      (if containsSub
          (env.run (Cmd.mk "git" ["push", "origin", "master"])).output
          "error" then
        some (env.run (Cmd.mk "git" ["push", "origin", "master"])).output
      else (env.run (Cmd.mk "git" ["push", "origin", "master"])).err) ∧
    (AddData gr data fp env).err =
      (if containsSub
          (env.run (Cmd.mk "git"
            ["commit", "-m", "Add " ++ (filepathSplit fp).2, fp])).output
          "error" then
        some (env.run (Cmd.mk "git"
          ["commit", "-m", "Add " ++ (filepathSplit fp).2, fp])).output
      else (env.run (Cmd.mk "git" ["add", fp])).err) := by
  constructor
  · simp only [Push, h1, h2]
  · simp only [AddData, h1, h2, h3, h4, ite_self, h5, Bool.false_eq_true,
      if_false]

/-- Witness for the amended C2: with empty outputs and non-zero exits
everywhere, `Push` returns the push invocation error and `AddData` returns
the add step's invocation error (the commit invocation error vanishes). -/
theorem c2_witness :
    (Push demoRepo envExitNoFatal).err = some "exit status 1" ∧
    (AddData demoRepo [104, 105] "sub/dir/f.txt" envExitNoFatal).err =
      some "exit status 1" := by
  have h := c2_theorem demoRepo [104, 105] "sub/dir/f.txt" envExitNoFatal
    rfl rfl rfl rfl rfl
  exact ⟨by rw [h.1]; rfl, by rw [h.2]; rfl⟩

/-- Claim C7: with working-directory handling succeeding, `Push` runs
exactly `git push origin master` (hardcoded branch `master`), and when the
combined output contains `"error"` it fails with an error whose message is
exactly the full captured output. -/
theorem c7_theorem (gr : GitRepo) (env : Env)
    (h1 : env.getwdErr = none) (h2 : env.chdirErr gr.folder = none) :
    (Push gr env).trace =
      [Effect.chdir gr.folder,
       Effect.runCmd (Cmd.mk "git" ["push", "origin", "master"]),
       Effect.chdir env.cwd] ∧
    (containsSub
        (env.run (Cmd.mk "git" ["push", "origin", "master"])).output
        "error" = true →
      (Push gr env).err =
        some (env.run (Cmd.mk "git" ["push", "origin", "master"])).output) := by
  constructor
  · simp [Push, h1, h2]
  · intro h5
    simp [Push, h1, h2, h5]

/-- Witness for C7: the stub prints `error: failed to push some refs`, and
`Push` fails with exactly that text as its error message. -/
theorem c7_witness :
    (Push demoRepo envErrorOut).trace =
      [Effect.chdir "/work/project",
       Effect.runCmd (Cmd.mk "git" ["push", "origin", "master"]),
       Effect.chdir "/work"] ∧
    (Push demoRepo envErrorOut).err = some "error: failed to push some refs" := by
  have h := c7_theorem demoRepo envErrorOut rfl rfl
  exact ⟨h.1, h.2 rfl⟩

/-- Environment whose stub prints an `error` message for the commit
invocation only (and also exits non-zero there), stays silent otherwise. -/
def envCommitError : Env :=
  { cwd := "/work", getwdErr := none, chdirErr := fun _ => none,
    mkdirAllErr := fun _ => none, writeFileErr := fun _ => none,
    run := fun c => if c.args.headD "" == "commit" then
        { output := "error: empty commit", err := some "exit status 1" }
      else { output := "", err := none },
    gitDirExists := true }

/-- Claim C5: with Getwd/Chdir/MkdirAll/WriteFile succeeding and the add
step's combined output containing `"error"`, `AddData` creates the
directory component (when present), writes the exact bytes before any git
command runs, invokes `git add <fp>`, fails with the add output as its
error, and never invokes any other command — in particular no commit. -/
theorem c5_theorem (gr : GitRepo) (data : List Nat) (fp : String) (env : Env)
    (h1 : env.getwdErr = none) (h2 : env.chdirErr gr.folder = none)
    (h3 : env.mkdirAllErr (filepathSplit fp).1 = none)
    (h4 : env.writeFileErr fp = none)
    (h5 : containsSub (env.run (Cmd.mk "git" ["add", fp])).output "error"
      = true) :
    (AddData gr data fp env).err =
      some (env.run (Cmd.mk "git" ["add", fp])).output ∧
    (AddData gr data fp env).trace =
      [Effect.chdir gr.folder] ++
      (if (filepathSplit fp).1.length > 0 then
        [Effect.mkdirAll (filepathSplit fp).1 0o775]
      else []) ++
      [Effect.writeFile fp data 0o755,
       Effect.runCmd (Cmd.mk "git" ["add", fp]),
       Effect.chdir env.cwd] ∧
    (∀ c : Cmd, Effect.runCmd c ∈ (AddData gr data fp env).trace →
      c = Cmd.mk "git" ["add", fp]) := by
  refine ⟨?_, ?_, ?_⟩
  · simp only [AddData, h1, h2, h3, h4, ite_self, h5, if_true]
  · simp only [AddData, h1, h2, h3, h4, ite_self, h5, if_true]
  · intro c hc
    simp only [AddData, h1, h2, h3, h4, ite_self, h5, if_true] at hc
    by_cases hd : (filepathSplit fp).1.length > 0 <;>
      simp [hd] at hc <;> exact hc

/-- Witness for C5: `addData` on `sub/dir/f.txt` with an `error`-printing
add stub creates `sub/dir/`, writes the bytes, runs only `git add`, and
fails with the add output; no commit command appears in the trace. -/
theorem c5_witness :
    (AddData demoRepo [104, 105] "sub/dir/f.txt" envErrorOut).err =
      some "error: failed to push some refs" ∧
    (AddData demoRepo [104, 105] "sub/dir/f.txt" envErrorOut).trace =
      [Effect.chdir "/work/project", Effect.mkdirAll "sub/dir/" 0o775,
       Effect.writeFile "sub/dir/f.txt" [104, 105] 0o755,
       Effect.runCmd (Cmd.mk "git" ["add", "sub/dir/f.txt"]),
       Effect.chdir "/work"] ∧
    (∀ c : Cmd,
      Effect.runCmd c ∈ (AddData demoRepo [104, 105] "sub/dir/f.txt" envErrorOut).trace →
      c = Cmd.mk "git" ["add", "sub/dir/f.txt"]) := by
  have h := c5_theorem demoRepo [104, 105] "sub/dir/f.txt" envErrorOut
    rfl rfl rfl rfl rfl
  exact ⟨h.1, by rw [h.2.1]; rfl, h.2.2⟩

/-- Claim C6: after a clean add output, `AddData` invokes the commit command
with message `"Add " ++ <filename>` restricted to the single path `fp`; its
final error is the commit output when that contains `"error"`, else the add
step's invocation error — the commit step's own invocation error is
discarded, while the add step's is propagated. -/
theorem c6_theorem (gr : GitRepo) (data : List Nat) (fp : String) (env : Env)
    (h1 : env.getwdErr = none) (h2 : env.chdirErr gr.folder = none)
    (h3 : env.mkdirAllErr (filepathSplit fp).1 = none)
    (h4 : env.writeFileErr fp = none)
    (h5 : containsSub (env.run (Cmd.mk "git" ["add", fp])).output "error"
      = false) :
    Effect.runCmd
        (Cmd.mk "git" ["commit", "-m", "Add " ++ (filepathSplit fp).2, fp])
      ∈ (AddData gr data fp env).trace ∧
    (AddData gr data fp env).err =
      (if containsSub
          (env.run (Cmd.mk "git"
            ["commit", "-m", "Add " ++ (filepathSplit fp).2, fp])).output
          "error" then
        some (env.run (Cmd.mk "git"
          ["commit", "-m", "Add " ++ (filepathSplit fp).2, fp])).output
      else (env.run (Cmd.mk "git" ["add", fp])).err) := by
  constructor
  · simp only [AddData, h1, h2, h3, h4, ite_self, h5, Bool.false_eq_true,
      if_false]
    simp
  · simp only [AddData, h1, h2, h3, h4, ite_self, h5, Bool.false_eq_true,
      if_false]

/-- Witness for C6: with a clean add and a commit stub printing
`error: empty commit` (and exiting non-zero), `AddData` runs the commit
command `git commit -m "Add f.txt" sub/dir/f.txt` and fails with the commit
output; separately, with everything silent but the add invocation failing
(`envExitNoFatal`), the add invocation error is what `AddData` returns. -/
theorem c6_witness :
    Effect.runCmd (Cmd.mk "git" ["commit", "-m", "Add f.txt", "sub/dir/f.txt"])
      ∈ (AddData demoRepo [104, 105] "sub/dir/f.txt" envCommitError).trace ∧
    (AddData demoRepo [104, 105] "sub/dir/f.txt" envCommitError).err =
      some "error: empty commit" := by
  have h := c6_theorem demoRepo [104, 105] "sub/dir/f.txt" envCommitError
    rfl rfl rfl rfl rfl
  exact ⟨h.1, by rw [h.2]; rfl⟩

/-- Environment where `os.Chdir` fails for every directory except the
original working directory `/work`. -/
def envChdirFail : Env :=
  { cwd := "/work", getwdErr := none,
    chdirErr := fun p =>
      if p == "/work" then none
      else some "chdir: no such file or directory",
    mkdirAllErr := fun _ => none, writeFileErr := fun _ => none,
    run := fun _ => { output := "", err := none },
    gitDirExists := false }

/-- Claim C8: whenever changing back to the original working directory is
possible, every operation — `Update`, `Push`, `AddData`,
`GetRemoteOriginURL` — ends with the process working directory equal to the
original one, on every exit path (success or failure partway through). -/
theorem c8_theorem (gr : GitRepo) (data : List Nat) (fp folder : String)
    (env : Env) (h : env.chdirErr env.cwd = none) :
    (Update gr env).finalCwd = env.cwd ∧
    (Push gr env).finalCwd = env.cwd ∧
    (AddData gr data fp env).finalCwd = env.cwd ∧
    (GetRemoteOriginURL folder env).finalCwd = env.cwd := by
  have hr : ∀ cur, restoreCwd env cur env.cwd = env.cwd := by
    intro cur
    simp [restoreCwd, chdirStep, h]
  refine ⟨?_, ?_, ?_, ?_⟩
  · unfold Update
    repeat' split
    all_goals simp [hr]
  · unfold Push
    repeat' split
    all_goals simp [hr]
  · unfold AddData
    repeat' split
    all_goals try simp [hr]
    all_goals
      cases hmk : (if 0 < (filepathSplit fp).1.length then
          env.mkdirAllErr (filepathSplit fp).1 else none) <;>
        simp [hmk, hr] <;> split <;> simp
  · unfold GetRemoteOriginURL
    repeat' split
    all_goals simp [hr]

/-- Witness for C8 at concrete inputs, covering a success path
(`envExitNoFatal`) and a failure path where `os.Chdir` into the repo folder
fails (`envChdirFail`): the working directory is `/work` again afterwards. -/
theorem c8_witness :
    ((Update demoRepo envExitNoFatal).finalCwd = "/work" ∧
     (Push demoRepo envExitNoFatal).finalCwd = "/work" ∧
     (AddData demoRepo [104, 105] "sub/dir/f.txt" envExitNoFatal).finalCwd = "/work" ∧
     (GetRemoteOriginURL "/work/project" envExitNoFatal).finalCwd = "/work") ∧
    ((Update demoRepo envChdirFail).finalCwd = "/work" ∧
     (Push demoRepo envChdirFail).finalCwd = "/work" ∧
     (AddData demoRepo [104, 105] "sub/dir/f.txt" envChdirFail).finalCwd = "/work" ∧
     (GetRemoteOriginURL "/gone" envChdirFail).finalCwd = "/work") := by
  constructor
  · exact c8_theorem demoRepo [104, 105] "sub/dir/f.txt" "/work/project"
      envExitNoFatal rfl
  · exact c8_theorem demoRepo [104, 105] "sub/dir/f.txt" "/gone"
      envChdirFail rfl

/-- Claim C9: `GetRemoteOriginURL` runs `git config --get remote.origin.url`
in the folder and returns the whitespace-trimmed combined output; the
invocation error is surfaced as-is (no text-based failure detection), and a
failing `os.Chdir` (folder missing) is surfaced as-is too. -/
theorem c9_theorem (folder : String) (env : Env)
    (h1 : env.getwdErr = none) :
    (∀ e, env.chdirErr folder = some e →
      (GetRemoteOriginURL folder env).err = some e ∧
      (GetRemoteOriginURL folder env).repo = "") ∧
    (env.chdirErr folder = none →
      (GetRemoteOriginURL folder env).repo =
        trimSpace (env.run
          (Cmd.mk "git" ["config", "--get", "remote.origin.url"])).output ∧
      (GetRemoteOriginURL folder env).err =
        (env.run (Cmd.mk "git" ["config", "--get", "remote.origin.url"])).err ∧
      (GetRemoteOriginURL folder env).trace =
        [Effect.chdir folder,
         Effect.runCmd (Cmd.mk "git" ["config", "--get", "remote.origin.url"]),
         Effect.chdir env.cwd]) := by
  constructor
  · intro e he
    constructor <;> simp [GetRemoteOriginURL, h1, he]
  · intro hc
    refine ⟨?_, ?_, ?_⟩ <;> simp [GetRemoteOriginURL, h1, hc]

/-- Environment whose config stub prints the remote URL padded with
whitespace and exits non-zero; `os.Chdir` fails for `/gone`. -/
def envCfg : Env :=
  { cwd := "/work", getwdErr := none,
    chdirErr := fun p =>
      if p == "/gone" then some "chdir /gone: no such file or directory"
      else none,
    mkdirAllErr := fun _ => none, writeFileErr := fun _ => none,
    run := fun _ => { output := "  https://host/group/project.git\x0a",
                      err := some "exit status 1" },
    gitDirExists := true }

/-- Witness for C9: the trimmed stub output is returned while the non-zero
exit is surfaced as-is, and a missing folder surfaces the chdir error. -/
theorem c9_witness :
    (GetRemoteOriginURL "/work/project" envCfg).repo =
      "https://host/group/project.git" ∧
    (GetRemoteOriginURL "/work/project" envCfg).err = some "exit status 1" ∧
    (GetRemoteOriginURL "/gone" envCfg).err =
      some "chdir /gone: no such file or directory" := by
  have hA0 := c9_theorem "/work/project" envCfg rfl
  have hA := hA0.2 rfl
  have hB0 := c9_theorem "/gone" envCfg rfl
  have hB := hB0.1 "chdir /gone: no such file or directory" rfl
  exact ⟨by rw [hA.1]; rfl, hA.2.1, hB.1⟩

/-- `NewEnv` where the directory is missing and `os.MkdirAll` fails. -/
def newEnvFail : NewEnv :=
  { absResult := fun f => .ok ("/work/" ++ f),
    dirExists := fun _ => false,
    mkdirAllErr := fun _ => some "mkdir: permission denied" }

/-- Claim C10: whenever `New` returns a non-nil error, the returned handle
has a nil logger (logging is initialised only after directory creation
succeeds), and calling `Debug` on such a handle dereferences the nil logger
(models as `none`, a panic): the precondition for using the handle is that
`New` returned without error. -/
theorem c10_theorem (repo : String) (optionalFolder : List String)
    (env : NewEnv) (h : (New repo optionalFolder env).2 ≠ none) :
    (New repo optionalFolder env).1.logger = none ∧
    ∀ enabled, Debug (New repo optionalFolder env).1 enabled = none := by
  unfold New at h ⊢
  cases hab : env.absResult (chooseFolder repo optionalFolder) with
  | error e => exact ⟨rfl, fun _ => rfl⟩
  | ok absFolder =>
    rw [hab] at h
    cases hd : env.dirExists absFolder with
    | true => simp [hd] at h
    | false =>
      cases hm : env.mkdirAllErr absFolder with
      | some e =>
        constructor
        · simp [hd, hm]
        · intro enabled
          simp [hd, hm, Debug]
      | none => simp [hd, hm] at h

/-- Witness for C10: `MkdirAll` fails, `New` errors, the returned handle's
logger is nil, and `Debug` on it panics (models as `none`). -/
theorem c10_witness :
    (New "https://host/group/project.git" [] newEnvFail).2 ≠ none ∧
    (New "https://host/group/project.git" [] newEnvFail).1.logger = none ∧
    ∀ enabled,
      Debug (New "https://host/group/project.git" [] newEnvFail).1 enabled
        = none := by
  have hne : (New "https://host/group/project.git" [] newEnvFail).2 ≠ none :=
    fun hx => Option.noConfusion hx
  have h := c10_theorem "https://host/group/project.git" [] newEnvFail hne
  exact ⟨hne, h.1, h.2⟩

end Gogit
